import Mathlib

/-!
Verification of the `env-twin` repository: two command-line JSON filters.

`modify_package.py` reads a JSON document from stdin, rewrites the `scripts`
section of the manifest (five fixed script entries, removal of `lint:format`)
and prints the result as JSON with a 2-space indent.

`remove_prettier.py` reads a JSON document from stdin, deletes the `prettier`
entry of `devDependencies` when present, reports on stderr which branch was
taken, and prints the result as JSON with a 2-space indent.

The embedding models JSON values as an inductive type whose objects are
insertion-ordered association lists (faithful to Python's `dict`, which
preserves insertion order and updates keys in place).  The Python dictionary
and sequence primitives used by the scripts (`in`, subscription, item
assignment, `del`) are modelled as `Option`-valued operations: `none` is an
unhandled Python exception (`TypeError` / `KeyError`), which aborts the
process before any JSON is written.
-/

namespace EnvTwin

/-- A parsed JSON value.  Objects are insertion-ordered association lists,
matching the insertion-ordered `dict` produced by Python's `json.load`;
numbers are modelled as integers (no claim involves non-integer numbers). -/
inductive Json where
  | null : Json
  | bool : Bool → Json
  | num : Int → Json
  | str : String → Json
  | arr : List Json → Json
  | obj : List (String × Json) → Json

/-- First value stored under key `k`, like `d[k]` on a Python dict. -/
def getKey : List (String × Json) → String → Option Json
  | [], _ => none
  | (k', v) :: rest, k => if k' = k then some v else getKey rest k

/-- `d[k] = v` on a Python dict: update the existing entry in place
(preserving its position) or append a fresh entry at the end. -/
def setKey : List (String × Json) → String → Json → List (String × Json)
  | [], k, v => [(k, v)]
  | (k', v') :: rest, k, v =>
    if k' = k then (k, v) :: rest else (k', v') :: setKey rest k v

/-- `del d[k]` on a Python dict: drop the entry for `k`. -/
def delKey : List (String × Json) → String → List (String × Json)
  | [], _ => []
  | (k', v') :: rest, k => if k' = k then rest else (k', v') :: delKey rest k

/-- `k in d` on a Python dict. -/
def hasKey : List (String × Json) → String → Bool
  | [], _ => false
  | (k', _) :: rest, k => if k' = k then true else hasKey rest k

/-- All keys of the association list are distinct.  Guaranteed for every
object produced by `json.load` (a Python dict cannot hold a key twice). -/
def noDupKeys : List (String × Json) → Bool
  | [] => true
  | (k, _) :: rest => !hasKey rest k && noDupKeys rest

/-- A manifest reachable from `json.load`: its top-level keys are distinct
and each directly nested object also has distinct keys (the two levels the
filters touch).  Full JSON parsing guarantees this at every depth. -/
def wfManifest (l : List (String × Json)) : Bool :=
  noDupKeys l && l.all (fun p =>
    match p.2 with
    | Json.obj s => noDupKeys s
    | _ => true)

/-- Python `needle == item` where `needle` is a `str`: true exactly on an
equal string (a Python `str` never equals a value of another type). -/
def eqStrJson (k : String) : Json → Bool
  | Json.str s => k == s
  | _ => false

/-- `pat` occurs at the very start of `s` (on character lists). -/
def charsStartWith : List Char → List Char → Bool
  | _, [] => true
  | [], _ :: _ => false
  | c :: cs, p :: ps => c == p && charsStartWith cs ps

/-- `pat` occurs somewhere in `s` (on character lists). -/
def charsContain : List Char → List Char → Bool
  | [], pat => pat.isEmpty
  | c :: cs, pat => charsStartWith (c :: cs) pat || charsContain cs pat

/-- Python substring test `pat in s` (an empty pattern is always contained). -/
def strContains (s pat : String) : Bool :=
  charsContain s.data pat.data

/-- Python `k in data` for a JSON value: key membership on a dict, element
membership on a list, substring test on a str, `TypeError` (= `none`)
on numbers, booleans and `None`. -/
def memJson (data : Json) (k : String) : Option Bool :=
  match data with
  | Json.obj l => some (hasKey l k)
  | Json.arr items => some (items.any (eqStrJson k))
  | Json.str s => some (strContains s k)
  | _ => none

/-- Python `data[k]` for a string subscript: lookup on a dict (`KeyError`
for a missing key), `TypeError` on every other value. -/
def pyIndexStr (data : Json) (k : String) : Option Json :=
  match data with
  | Json.obj l => getKey l k
  | _ => none

/-- Python `data[k] = v` for a string subscript: in-place update on a dict,
`TypeError` on every other value. -/
def pyAssignStr (data : Json) (k : String) (v : Json) : Option Json :=
  match data with
  | Json.obj l => some (Json.obj (setKey l k v))
  | _ => none

/-- Python `del data[k]` for a string subscript: entry removal on a dict
(`KeyError` for a missing key), `TypeError` on every other value. -/
def delJson (data : Json) (k : String) : Option Json :=
  match data with
  | Json.obj l => if hasKey l k then some (Json.obj (delKey l k)) else none
  | _ => none

/-- Python `data[outer][k] = v`: read `data[outer]`, item-assign on that
dict, and write back (the write-back renders the in-place mutation
functionally; no aliasing exists in a value freshly produced by
`json.load`). -/
def assignInto (data : Json) (outer k : String) (v : Json) : Option Json :=
  (pyIndexStr data outer).bind fun inner =>
  (pyAssignStr inner k v).bind fun inner' =>
  pyAssignStr data outer inner'

/-- Python `del data[outer][k]`: read `data[outer]`, delete `k` on it, and
write back. -/
def deleteInto (data : Json) (outer k : String) : Option Json :=
  (pyIndexStr data outer).bind fun inner =>
  (delJson inner k).bind fun inner' =>
  pyAssignStr data outer inner'

/-- The six mutation statements of `modify_package.py` that follow the
`scripts`-creation guard, statement by statement: set `build`, drop
`lint:format` when present, then set `lint`, `lint:fix`, `format` and
`format:fix`.  `none` is an unhandled exception (`scripts` present but not
a dict). -/
def modifyScriptsSteps (data : Json) : Option Json :=
  -- data['scripts']['build'] = 'bun build.ts'
  (assignInto data "scripts" "build" (Json.str "bun build.ts")).bind fun data =>
  -- if 'lint:format' in data['scripts']: del data['scripts']['lint:format']
  (pyIndexStr data "scripts").bind fun s =>
  (memJson s "lint:format").bind fun hasLF =>
  (if hasLF then deleteInto data "scripts" "lint:format" else some data).bind fun data =>
  -- the four remaining fixed script entries
  (assignInto data "scripts" "lint" (Json.str "bun biome lint .")).bind fun data =>
  (assignInto data "scripts" "lint:fix" (Json.str "bun biome lint --apply .")).bind fun data =>
  (assignInto data "scripts" "format" (Json.str "bun biome format .")).bind fun data =>
  (assignInto data "scripts" "format:fix" (Json.str "bun biome format --write .")).bind fun data =>
  some data

/-- The transformation body of `modify_package.py`: create `scripts` as an
empty dict when missing, then apply the six mutation statements. -/
def modifyPackageVal (data : Json) : Option Json :=
  -- if 'scripts' not in data: data['scripts'] = ...
  (memJson data "scripts").bind fun hasScripts =>
  (if hasScripts then some data else pyAssignStr data "scripts" (Json.obj [])).bind fun data =>
  modifyScriptsSteps data

/-- Diagnostic line of `remove_prettier.py` on the removal branch. -/
def removedMsg : String := "Removed prettier from devDependencies."

/-- Diagnostic line of `remove_prettier.py` on the no-op branch. -/
def notFoundMsg : String :=
  "prettier not found in devDependencies or devDependencies section missing."

/-- The transformation body of `remove_prettier.py`: the short-circuit
condition `'devDependencies' in data and 'prettier' in data['devDependencies']`,
the `del`, and the diagnostic line printed to stderr. -/
def removePrettierVal (data : Json) : Option (Json × String) :=
  -- 'devDependencies' in data and 'prettier' in data['devDependencies']
  (memJson data "devDependencies").bind fun hasDD =>
  (if hasDD then
      (pyIndexStr data "devDependencies").bind fun dd => memJson dd "prettier"
    else some false).bind fun cond =>
  if cond then
    -- del data['devDependencies']['prettier']
    (deleteInto data "devDependencies" "prettier").bind fun data =>
    some (data, removedMsg)
  else
    some (data, notFoundMsg)

/-- Lowercase hexadecimal digit, as produced by Python's json encoder. -/
def hexDigit (n : Nat) : Char :=
  if n < 10 then Char.ofNat (48 + n) else Char.ofNat (87 + n)

/-- Four lowercase hexadecimal digits (`\uXXXX` payload). -/
def hex4 (n : Nat) : String :=
  String.mk [hexDigit (n / 4096 % 16), hexDigit (n / 256 % 16),
             hexDigit (n / 16 % 16), hexDigit (n % 16)]

/-- One character of a JSON string as escaped by Python's json encoder with
its default `ensure_ascii=True`: the two-character escapes for quote,
backslash and the common control characters, printable ASCII verbatim, and
`\uXXXX` (with surrogate pairs beyond the BMP) for everything else. -/
def escapeChar (c : Char) : String :=
  if c = '"' then "\\\""
  else if c = '\\' then "\\\\"
  else if c.toNat = 8 then "\\b"
  else if c.toNat = 9 then "\\t"
  else if c.toNat = 10 then "\\n"
  else if c.toNat = 12 then "\\f"
  else if c.toNat = 13 then "\\r"
  else if 32 ≤ c.toNat && c.toNat ≤ 126 then String.mk [c]
  else if c.toNat < 65536 then "\\u" ++ hex4 c.toNat
  else "\\u" ++ hex4 (55296 + (c.toNat - 65536) / 1024) ++
       "\\u" ++ hex4 (56320 + (c.toNat - 65536) % 1024)

/-- A JSON string literal as serialized by Python's json encoder. -/
def quoteStr (s : String) : String :=
  "\"" ++ String.join (s.data.map escapeChar) ++ "\""

/-- The indentation in front of a line at nesting depth `n` when
serializing with `indent=2`. -/
def indentStr (n : Nat) : String := String.join (List.replicate n "  ")

mutual

/-- `json.dump(v, ..., indent=2)` at nesting depth `lvl`: each container
opens on the current line, puts every element on its own line indented two
further spaces, and closes on a fresh line at the current indent; empty
containers collapse; the key separator is a colon and space. -/
def dumpVal (lvl : Nat) : Json → String
  | Json.null => "null"
  | Json.bool b => if b then "true" else "false"
  | Json.num n => toString n
  | Json.str s => quoteStr s
  | Json.arr [] => "[]"
  | Json.arr (x :: xs) =>
      "[\n" ++ indentStr (lvl + 1) ++ dumpVal (lvl + 1) x ++
      dumpItems (lvl + 1) xs ++ "\n" ++ indentStr lvl ++ "]"
  | Json.obj [] => "\x7b\x7d"
  | Json.obj (e :: es) =>
      "\x7b\n" ++ indentStr (lvl + 1) ++ dumpEntry (lvl + 1) e ++
      dumpEntries (lvl + 1) es ++ "\n" ++ indentStr lvl ++ "\x7d"

/-- Remaining array elements, each preceded by a comma and newline. -/
def dumpItems (lvl : Nat) : List Json → String
  | [] => ""
  | x :: xs => ",\n" ++ indentStr lvl ++ dumpVal lvl x ++ dumpItems lvl xs

/-- One `"key": value` pair. -/
def dumpEntry (lvl : Nat) : String × Json → String
  | (k, v) => quoteStr k ++ ": " ++ dumpVal lvl v

/-- Remaining object entries, each preceded by a comma and newline. -/
def dumpEntries (lvl : Nat) : List (String × Json) → String
  | [] => ""
  | e :: es => ",\n" ++ indentStr lvl ++ dumpEntry lvl e ++ dumpEntries lvl es

end

/-- The outcome of `json.load(sys.stdin)`: the parsed document, or the
decoder's `JSONDecodeError` with its message. -/
inductive ParseResult where
  | ok : Json → ParseResult
  | err : String → ParseResult

/-- Observable outcome of one filter process: the bytes written to standard
output (if any), the diagnostic lines the script itself prints to standard
error (the interpreter's traceback on an unhandled exception is not modelled
as text), and the exit code. -/
structure RunResult where
  stdout : Option String
  stderr : List String
  exitCode : Nat
  deriving DecidableEq

/-- The whole `modify_package.py` process: on a decode error, print the
diagnostic and exit 1; otherwise transform and dump, where an unhandled
exception inside the transform aborts with exit code 1 before anything
reaches standard output. -/
def runModifyPackage : ParseResult → RunResult
  | ParseResult.err e => ⟨none, ["Error decoding JSON: " ++ e], 1⟩
  | ParseResult.ok data =>
    match modifyPackageVal data with
    | some out => ⟨some (dumpVal 0 out), [], 0⟩
    | none => ⟨none, [], 1⟩

/-- The whole `remove_prettier.py` process, analogously; on success the one
diagnostic line of the taken branch is on standard error. -/
def runRemovePrettier : ParseResult → RunResult
  | ParseResult.err e => ⟨none, ["Error decoding JSON: " ++ e], 1⟩
  | ParseResult.ok data =>
    match removePrettierVal data with
    | some (out, msg) => ⟨some (dumpVal 0 out), [msg], 0⟩
    | none => ⟨none, [], 1⟩

/-- The net effect of `modify_package.py` on the entries of a `scripts`
dict, collapsing the intermediate write-backs: set `build`, drop
`lint:format` when present, then set the remaining four fixed entries.
`modifyPackage_obj` below proves `modifyPackageVal` equal to this. -/
def editScripts (s : List (String × Json)) : List (String × Json) :=
  let s1 := setKey s "build" (Json.str "bun build.ts")
  let s2 := if hasKey s1 "lint:format" then delKey s1 "lint:format" else s1
  let s3 := setKey s2 "lint" (Json.str "bun biome lint .")
  let s4 := setKey s3 "lint:fix" (Json.str "bun biome lint --apply .")
  let s5 := setKey s4 "format" (Json.str "bun biome format .")
  setKey s5 "format:fix" (Json.str "bun biome format --write .")

/-! ### Association-list lemmas -/

@[simp] theorem getKey_setKey_self (l : List (String × Json)) (k : String) (v : Json) :
    getKey (setKey l k v) k = some v := by
  induction l with
  | nil => simp [setKey, getKey]
  | cons e rest ih =>
    obtain ⟨k', v'⟩ := e
    by_cases h : k' = k
    · simp [setKey, getKey, h]
    · simp [setKey, getKey, h, ih]

theorem getKey_setKey_ne (l : List (String × Json)) (k k' : String) (v : Json)
    (h : k' ≠ k) : getKey (setKey l k v) k' = getKey l k' := by
  induction l with
  | nil => simp [setKey, getKey, Ne.symm h]
  | cons e rest ih =>
    obtain ⟨k₀, v₀⟩ := e
    by_cases h₀ : k₀ = k
    · subst h₀
      simp [setKey, getKey, Ne.symm h]
    · simp [setKey, getKey, h₀, ih]

theorem hasKey_eq_isSome (l : List (String × Json)) (k : String) :
    hasKey l k = (getKey l k).isSome := by
  induction l with
  | nil => simp [hasKey, getKey]
  | cons e rest ih =>
    obtain ⟨k', v'⟩ := e
    by_cases h : k' = k
    · simp [hasKey, getKey, h]
    · simp [hasKey, getKey, h, ih]

theorem setKey_of_getKey (l : List (String × Json)) (k : String) (v : Json)
    (h : getKey l k = some v) : setKey l k v = l := by
  induction l with
  | nil => simp [getKey] at h
  | cons e rest ih =>
    obtain ⟨k', v'⟩ := e
    by_cases hk : k' = k
    · subst hk
      simp [getKey] at h
      simp [setKey, h]
    · simp [getKey, hk] at h
      simp [setKey, hk, ih h]

theorem setKey_setKey (l : List (String × Json)) (k : String) (v w : Json) :
    setKey (setKey l k v) k w = setKey l k w := by
  induction l with
  | nil => simp [setKey]
  | cons e rest ih =>
    obtain ⟨k', v'⟩ := e
    by_cases hk : k' = k
    · simp [setKey, hk]
    · simp [setKey, hk, ih]

theorem getKey_delKey_ne (l : List (String × Json)) (k k' : String)
    (h : k' ≠ k) : getKey (delKey l k) k' = getKey l k' := by
  induction l with
  | nil => simp [delKey]
  | cons e rest ih =>
    obtain ⟨k₀, v₀⟩ := e
    by_cases h₀ : k₀ = k
    · subst h₀
      simp [delKey, getKey, Ne.symm h]
    · simp [delKey, getKey, h₀, ih]

theorem hasKey_setKey_ne (l : List (String × Json)) (k k' : String) (v : Json)
    (h : k' ≠ k) : hasKey (setKey l k v) k' = hasKey l k' := by
  rw [hasKey_eq_isSome, hasKey_eq_isSome, getKey_setKey_ne l k k' v h]

theorem hasKey_delKey_self (l : List (String × Json)) (k : String)
    (h : noDupKeys l = true) : hasKey (delKey l k) k = false := by
  induction l with
  | nil => simp [delKey, hasKey]
  | cons e rest ih =>
    obtain ⟨k', v'⟩ := e
    simp only [noDupKeys, Bool.and_eq_true, Bool.not_eq_true'] at h
    by_cases hk : k' = k
    · subst hk
      simpa [delKey] using h.1
    · simp [delKey, hasKey, hk, ih h.2]

theorem noDupKeys_setKey (l : List (String × Json)) (k : String) (v : Json)
    (h : noDupKeys l = true) : noDupKeys (setKey l k v) = true := by
  induction l with
  | nil => simp [setKey, noDupKeys, hasKey]
  | cons e rest ih =>
    obtain ⟨k', v'⟩ := e
    simp only [noDupKeys, Bool.and_eq_true, Bool.not_eq_true'] at h
    by_cases hk : k' = k
    · subst hk
      simp only [setKey, if_pos rfl, noDupKeys, Bool.and_eq_true, Bool.not_eq_true']
      exact ⟨h.1, h.2⟩
    · simp only [setKey, if_neg hk, noDupKeys, Bool.and_eq_true, Bool.not_eq_true']
      refine ⟨?_, ih h.2⟩
      rw [hasKey_setKey_ne rest k k' v hk]
      exact h.1

theorem filter_setKey (P : String × Json → Bool) (l : List (String × Json))
    (k : String) (v : Json) (hP : ∀ w, P (k, w) = false) :
    (setKey l k v).filter P = l.filter P := by
  induction l with
  | nil => simp [setKey, hP]
  | cons e rest ih =>
    obtain ⟨k', v'⟩ := e
    by_cases hk : k' = k
    · subst hk
      simp [setKey, List.filter_cons, hP]
    · simp [setKey, hk, List.filter_cons, ih]

theorem filter_delKey (P : String × Json → Bool) (l : List (String × Json))
    (k : String) (hP : ∀ w, P (k, w) = false) :
    (delKey l k).filter P = l.filter P := by
  induction l with
  | nil => simp [delKey]
  | cons e rest ih =>
    obtain ⟨k', v'⟩ := e
    by_cases hk : k' = k
    · subst hk
      simp [delKey, List.filter_cons, hP]
    · simp [delKey, hk, List.filter_cons, ih]

theorem wfManifest_noDup (l : List (String × Json)) (h : wfManifest l = true) :
    noDupKeys l = true := by
  simp only [wfManifest, Bool.and_eq_true] at h
  exact h.1

theorem allSubObjNoDup (k : String) (s : List (String × Json)) :
    ∀ l : List (String × Json),
      (l.all (fun p =>
        match p.2 with
        | Json.obj s => noDupKeys s
        | _ => true) = true) →
      getKey l k = some (Json.obj s) → noDupKeys s = true
  | [], _, hg => by simp [getKey] at hg
  | (k', v') :: rest, hall, hg => by
      rw [List.all_cons, Bool.and_eq_true] at hall
      by_cases hk : k' = k
      · subst hk
        simp only [getKey, if_true, eq_self_iff_true, if_pos, Option.some.injEq] at hg
        subst hg
        simpa using hall.1
      · rw [getKey, if_neg hk] at hg
        exact allSubObjNoDup k s rest hall.2 hg

theorem wfManifest_sub (l : List (String × Json)) (k : String)
    (s : List (String × Json)) (h : wfManifest l = true)
    (hg : getKey l k = some (Json.obj s)) : noDupKeys s = true := by
  simp only [wfManifest, Bool.and_eq_true] at h
  exact allSubObjNoDup k s l h.2 hg

/-! ### Characterization of the two transforms on an object manifest -/

/-- Whether a JSON value is an object (a Python dict). -/
def Json.isObj : Json → Bool
  | Json.obj _ => true
  | _ => false

@[simp] theorem memJson_obj (l : List (String × Json)) (k : String) :
    memJson (Json.obj l) k = some (hasKey l k) := rfl

@[simp] theorem pyIndexStr_obj (l : List (String × Json)) (k : String) :
    pyIndexStr (Json.obj l) k = getKey l k := rfl

@[simp] theorem pyAssignStr_obj (l : List (String × Json)) (k : String) (v : Json) :
    pyAssignStr (Json.obj l) k v = some (Json.obj (setKey l k v)) := rfl

@[simp] theorem delJson_obj (l : List (String × Json)) (k : String) :
    delJson (Json.obj l) k =
      if hasKey l k then some (Json.obj (delKey l k)) else none := rfl

/-- The six mutation statements on a manifest whose `scripts` entry is a
dict `s` amount to replacing that entry by `editScripts s`. -/
theorem modifyScriptsSteps_obj (m s : List (String × Json))
    (hg : getKey m "scripts" = some (Json.obj s)) :
    modifyScriptsSteps (Json.obj m) =
      some (Json.obj (setKey m "scripts" (Json.obj (editScripts s)))) := by
  by_cases hlf : hasKey (setKey s "build" (Json.str "bun build.ts")) "lint:format" <;>
    simp [modifyScriptsSteps, assignInto, deleteInto, hg, hlf, editScripts,
          getKey_setKey_self, setKey_setKey]

/-- The six mutation statements abort (`TypeError`) when the `scripts`
entry is present but not a dict. -/
theorem modifyScriptsSteps_bad (m : List (String × Json)) (v : Json)
    (hg : getKey m "scripts" = some v) (hv : v.isObj = false) :
    modifyScriptsSteps (Json.obj m) = none := by
  cases v <;> simp [Json.isObj] at hv <;>
    simp [modifyScriptsSteps, assignInto, pyAssignStr, hg]

theorem modifyPackage_obj (l : List (String × Json)) :
    modifyPackageVal (Json.obj l) =
      match getKey l "scripts" with
      | none => some (Json.obj (setKey l "scripts" (Json.obj (editScripts []))))
      | some (Json.obj s) => some (Json.obj (setKey l "scripts" (Json.obj (editScripts s))))
      | some _ => none := by
  cases hg : getKey l "scripts" with
  | none =>
    have hk : hasKey l "scripts" = false := by rw [hasKey_eq_isSome, hg]; rfl
    have hstep := modifyScriptsSteps_obj (setKey l "scripts" (Json.obj [])) []
      (getKey_setKey_self l "scripts" (Json.obj []))
    simp [modifyPackageVal, hk, hstep, setKey_setKey]
  | some v =>
    have hk : hasKey l "scripts" = true := by rw [hasKey_eq_isSome, hg]; rfl
    cases v with
    | obj s => simp [modifyPackageVal, hk, modifyScriptsSteps_obj l s hg]
    | null => simp [modifyPackageVal, hk, modifyScriptsSteps_bad l _ hg rfl]
    | bool b => simp [modifyPackageVal, hk, modifyScriptsSteps_bad l _ hg rfl]
    | num n => simp [modifyPackageVal, hk, modifyScriptsSteps_bad l _ hg rfl]
    | str s => simp [modifyPackageVal, hk, modifyScriptsSteps_bad l _ hg rfl]
    | arr a => simp [modifyPackageVal, hk, modifyScriptsSteps_bad l _ hg rfl]

theorem removePrettier_obj (l : List (String × Json)) :
    removePrettierVal (Json.obj l) =
      match getKey l "devDependencies" with
      | none => some (Json.obj l, notFoundMsg)
      | some dd =>
        match memJson dd "prettier" with
        | none => none
        | some false => some (Json.obj l, notFoundMsg)
        | some true =>
          match delJson dd "prettier" with
          | none => none
          | some dd' => some (Json.obj (setKey l "devDependencies" dd'), removedMsg) := by
  cases hg : getKey l "devDependencies" with
  | none =>
    have hk : hasKey l "devDependencies" = false := by rw [hasKey_eq_isSome, hg]; rfl
    simp [removePrettierVal, hk]
  | some dd =>
    have hk : hasKey l "devDependencies" = true := by rw [hasKey_eq_isSome, hg]; rfl
    cases hm : memJson dd "prettier" with
    | none => simp [removePrettierVal, deleteInto, hg, hk, hm]
    | some b =>
      cases b with
      | false => simp [removePrettierVal, deleteInto, hg, hk, hm]
      | true =>
        cases hd : delJson dd "prettier" with
        | none => simp [removePrettierVal, deleteInto, hg, hk, hm, hd]
        | some dd' => simp [removePrettierVal, deleteInto, hg, hk, hm, hd]

theorem modifyPackage_obj_none (l : List (String × Json))
    (hg : getKey l "scripts" = none) :
    modifyPackageVal (Json.obj l) =
      some (Json.obj (setKey l "scripts" (Json.obj (editScripts [])))) := by
  simp only [modifyPackage_obj, hg]

theorem modifyPackage_obj_some (l s : List (String × Json))
    (hg : getKey l "scripts" = some (Json.obj s)) :
    modifyPackageVal (Json.obj l) =
      some (Json.obj (setKey l "scripts" (Json.obj (editScripts s)))) := by
  simp only [modifyPackage_obj, hg]

theorem removePrettier_obj_none (l : List (String × Json))
    (hg : getKey l "devDependencies" = none) :
    removePrettierVal (Json.obj l) = some (Json.obj l, notFoundMsg) := by
  simp only [removePrettier_obj, hg]

theorem removePrettier_obj_notFound (l : List (String × Json)) (dd : Json)
    (hg : getKey l "devDependencies" = some dd)
    (hm : memJson dd "prettier" = some false) :
    removePrettierVal (Json.obj l) = some (Json.obj l, notFoundMsg) := by
  simp only [removePrettier_obj, hg, hm]

theorem removePrettier_obj_removed (l s : List (String × Json))
    (hg : getKey l "devDependencies" = some (Json.obj s))
    (hp : hasKey s "prettier" = true) :
    removePrettierVal (Json.obj l) =
      some (Json.obj (setKey l "devDependencies" (Json.obj (delKey s "prettier"))),
            removedMsg) := by
  simp only [removePrettier_obj, hg, memJson_obj, hp, delJson_obj, eq_self_iff_true,
             if_true]

/-- Inversion for a successful `del data[k]` on a JSON value. -/
theorem delJson_eq_some (dd dd' : Json) (k : String) (h : delJson dd k = some dd') :
    ∃ s, dd = Json.obj s ∧ hasKey s k = true ∧ dd' = Json.obj (delKey s k) := by
  cases dd with
  | obj s =>
    by_cases hk : hasKey s k
    · refine ⟨s, rfl, hk, ?_⟩
      simp [delJson, hk] at h
      exact h.symm
    · simp [delJson, hk] at h
  | null => simp [delJson] at h
  | bool b => simp [delJson] at h
  | num n => simp [delJson] at h
  | str s => simp [delJson] at h
  | arr a => simp [delJson] at h

/-! ### Properties of the net `scripts` edit -/

theorem editScripts_spec (s : List (String × Json)) (h : noDupKeys s = true) :
    getKey (editScripts s) "build" = some (Json.str "bun build.ts") ∧
    getKey (editScripts s) "lint" = some (Json.str "bun biome lint .") ∧
    getKey (editScripts s) "lint:fix" = some (Json.str "bun biome lint --apply .") ∧
    getKey (editScripts s) "format" = some (Json.str "bun biome format .") ∧
    getKey (editScripts s) "format:fix" = some (Json.str "bun biome format --write .") ∧
    hasKey (editScripts s) "lint:format" = false := by
  refine ⟨?_, ?_, ?_, ?_, ?_, ?_⟩
  · simp only [editScripts]
    rw [getKey_setKey_ne _ _ _ _ (by decide), getKey_setKey_ne _ _ _ _ (by decide),
        getKey_setKey_ne _ _ _ _ (by decide), getKey_setKey_ne _ _ _ _ (by decide)]
    by_cases hlf : hasKey (setKey s "build" (Json.str "bun build.ts")) "lint:format"
    · rw [if_pos hlf, getKey_delKey_ne _ _ _ (by decide), getKey_setKey_self]
    · rw [if_neg hlf, getKey_setKey_self]
  · simp only [editScripts]
    rw [getKey_setKey_ne _ _ _ _ (by decide), getKey_setKey_ne _ _ _ _ (by decide),
        getKey_setKey_ne _ _ _ _ (by decide), getKey_setKey_self]
  · simp only [editScripts]
    rw [getKey_setKey_ne _ _ _ _ (by decide), getKey_setKey_ne _ _ _ _ (by decide),
        getKey_setKey_self]
  · simp only [editScripts]
    rw [getKey_setKey_ne _ _ _ _ (by decide), getKey_setKey_self]
  · simp only [editScripts]
    rw [getKey_setKey_self]
  · simp only [editScripts]
    rw [hasKey_setKey_ne _ _ _ _ (by decide), hasKey_setKey_ne _ _ _ _ (by decide),
        hasKey_setKey_ne _ _ _ _ (by decide), hasKey_setKey_ne _ _ _ _ (by decide)]
    by_cases hlf : hasKey (setKey s "build" (Json.str "bun build.ts")) "lint:format"
    · rw [if_pos hlf]
      exact hasKey_delKey_self _ _ (noDupKeys_setKey s "build" (Json.str "bun build.ts") h)
    · rw [if_neg hlf]
      exact Bool.not_eq_true _ ▸ (Bool.of_not_eq_true hlf)

theorem editScripts_idem (s : List (String × Json)) (h : noDupKeys s = true) :
    editScripts (editScripts s) = editScripts s := by
  obtain ⟨h1, h2, h3, h4, h5, h6⟩ := editScripts_spec s h
  generalize hE : editScripts s = E at h1 h2 h3 h4 h5 h6 ⊢
  simp only [editScripts]
  rw [setKey_of_getKey _ _ _ h1, h6]
  simp only [Bool.false_eq_true, if_false]
  rw [setKey_of_getKey _ _ _ h2, setKey_of_getKey _ _ _ h3,
      setKey_of_getKey _ _ _ h4, setKey_of_getKey _ _ _ h5]

theorem editScripts_filter (s : List (String × Json)) (P : String × Json → Bool)
    (hb : ∀ w, P ("build", w) = false) (hl : ∀ w, P ("lint", w) = false)
    (hlx : ∀ w, P ("lint:fix", w) = false) (hf : ∀ w, P ("format", w) = false)
    (hfx : ∀ w, P ("format:fix", w) = false) (hlf : ∀ w, P ("lint:format", w) = false) :
    (editScripts s).filter P = s.filter P := by
  simp only [editScripts]
  rw [filter_setKey _ _ _ _ hfx, filter_setKey _ _ _ _ hf, filter_setKey _ _ _ _ hlx,
      filter_setKey _ _ _ _ hl]
  by_cases hc : hasKey (setKey s "build" (Json.str "bun build.ts")) "lint:format"
  · rw [if_pos hc, filter_delKey _ _ _ hlf, filter_setKey _ _ _ _ hb]
  · rw [if_neg hc, filter_setKey _ _ _ _ hb]

/-! ### Claims -/

/-- Claim C1: for every JSON-object manifest, after the Script-Editor
transform (whenever it completes) the manifest has a `scripts` field mapping
`build`, `lint`, `lint:fix`, `format` and `format:fix` to their fixed
command strings and not containing `lint:format`; if the input had no
`scripts` field, one is created (the conclusion holds in that case too). -/
theorem modifyPackage_scripts_invariant (l : List (String × Json)) (out : Json)
    (hwf : wfManifest l = true)
    (h : modifyPackageVal (Json.obj l) = some out) :
    ∃ l' s, out = Json.obj l' ∧ getKey l' "scripts" = some (Json.obj s) ∧
      getKey s "build" = some (Json.str "bun build.ts") ∧
      getKey s "lint" = some (Json.str "bun biome lint .") ∧
      getKey s "lint:fix" = some (Json.str "bun biome lint --apply .") ∧
      getKey s "format" = some (Json.str "bun biome format .") ∧
      getKey s "format:fix" = some (Json.str "bun biome format --write .") ∧
      hasKey s "lint:format" = false := by
  rw [modifyPackage_obj] at h
  cases hg : getKey l "scripts" with
  | none =>
    simp only [hg, Option.some.injEq] at h
    subst h
    have hs := editScripts_spec [] rfl
    exact ⟨_, editScripts [], rfl, getKey_setKey_self _ _ _, hs.1, hs.2.1, hs.2.2.1,
           hs.2.2.2.1, hs.2.2.2.2.1, hs.2.2.2.2.2⟩
  | some v =>
    cases v with
    | obj s =>
      simp only [hg, Option.some.injEq] at h
      subst h
      have hs := editScripts_spec s (wfManifest_sub l "scripts" s hwf hg)
      exact ⟨_, editScripts s, rfl, getKey_setKey_self _ _ _, hs.1, hs.2.1, hs.2.2.1,
             hs.2.2.2.1, hs.2.2.2.2.1, hs.2.2.2.2.2⟩
    | null => simp [hg] at h
    | bool b => simp [hg] at h
    | num n => simp [hg] at h
    | str s => simp [hg] at h
    | arr a => simp [hg] at h

/-- Witness for C1 at the concrete manifest
`\x7b"scripts": \x7b"lint:format": "x"\x7d\x7d`. -/
theorem modifyPackage_scripts_invariant_witness :
    wfManifest [("scripts", Json.obj [("lint:format", Json.str "x")])] = true ∧
    modifyPackageVal (Json.obj [("scripts", Json.obj [("lint:format", Json.str "x")])]) =
      some (Json.obj [("scripts", Json.obj
        [("build", Json.str "bun build.ts"), ("lint", Json.str "bun biome lint ."),
         ("lint:fix", Json.str "bun biome lint --apply ."),
         ("format", Json.str "bun biome format ."),
         ("format:fix", Json.str "bun biome format --write .")])]) ∧
    (∃ l' s, (Json.obj [("scripts", Json.obj
        [("build", Json.str "bun build.ts"), ("lint", Json.str "bun biome lint ."),
         ("lint:fix", Json.str "bun biome lint --apply ."),
         ("format", Json.str "bun biome format ."),
         ("format:fix", Json.str "bun biome format --write .")])]) = Json.obj l' ∧
      getKey l' "scripts" = some (Json.obj s) ∧
      getKey s "build" = some (Json.str "bun build.ts") ∧
      getKey s "lint" = some (Json.str "bun biome lint .") ∧
      getKey s "lint:fix" = some (Json.str "bun biome lint --apply .") ∧
      getKey s "format" = some (Json.str "bun biome format .") ∧
      getKey s "format:fix" = some (Json.str "bun biome format --write .") ∧
      hasKey s "lint:format" = false) :=
  ⟨rfl, rfl,
   modifyPackage_scripts_invariant
     [("scripts", Json.obj [("lint:format", Json.str "x")])] _ rfl rfl⟩

/-- Claim C5: the Script-Editor transform is idempotent on every JSON-object
manifest: running it a second time on the first run's output changes
nothing (stated with `Option.bind`, so a failing first run stays failing). -/
theorem modifyPackage_idempotent (l : List (String × Json))
    (hwf : wfManifest l = true) :
    (modifyPackageVal (Json.obj l)).bind modifyPackageVal =
      modifyPackageVal (Json.obj l) := by
  cases hg : getKey l "scripts" with
  | none =>
    rw [modifyPackage_obj_none l hg]
    simp only [Option.bind]
    rw [modifyPackage_obj_some _ _ (getKey_setKey_self l "scripts" (Json.obj (editScripts []))),
        editScripts_idem [] rfl, setKey_setKey]
  | some v =>
    cases v with
    | obj s =>
      rw [modifyPackage_obj_some l s hg]
      simp only [Option.bind]
      rw [modifyPackage_obj_some _ _
            (getKey_setKey_self l "scripts" (Json.obj (editScripts s))),
          editScripts_idem s (wfManifest_sub l "scripts" s hwf hg), setKey_setKey]
    | null => simp [modifyPackage_obj, hg]
    | bool b => simp [modifyPackage_obj, hg]
    | num n => simp [modifyPackage_obj, hg]
    | str s => simp [modifyPackage_obj, hg]
    | arr a => simp [modifyPackage_obj, hg]

/-- Witness for C5 at the concrete manifest
`\x7b"scripts": \x7b"test": "t"\x7d\x7d`. -/
theorem modifyPackage_idempotent_witness :
    wfManifest [("scripts", Json.obj [("test", Json.str "t")])] = true ∧
    (modifyPackageVal (Json.obj [("scripts", Json.obj [("test", Json.str "t")])])).bind
        modifyPackageVal =
      modifyPackageVal (Json.obj [("scripts", Json.obj [("test", Json.str "t")])]) :=
  ⟨rfl, modifyPackage_idempotent [("scripts", Json.obj [("test", Json.str "t")])] rfl⟩

/-- Claim C6: the Dependency-Remover is idempotent on its JSON output: a
second run on the first run's output manifest returns that manifest
unchanged (taking the "not found" branch). -/
theorem removePrettier_idempotent (l : List (String × Json)) (out : Json) (msg : String)
    (hwf : wfManifest l = true)
    (h : removePrettierVal (Json.obj l) = some (out, msg)) :
    removePrettierVal out = some (out, notFoundMsg) := by
  rw [removePrettier_obj] at h
  cases hg : getKey l "devDependencies" with
  | none =>
    simp only [hg, Option.some.injEq, Prod.mk.injEq] at h
    obtain ⟨rfl, rfl⟩ := h
    exact removePrettier_obj_none l hg
  | some dd =>
    cases hm : memJson dd "prettier" with
    | none => simp [hg, hm] at h
    | some b =>
      cases b with
      | false =>
        simp only [hg, hm, Option.some.injEq, Prod.mk.injEq] at h
        obtain ⟨rfl, rfl⟩ := h
        exact removePrettier_obj_notFound l dd hg hm
      | true =>
        cases hd : delJson dd "prettier" with
        | none => simp [hg, hm, hd] at h
        | some dd' =>
          obtain ⟨s, rfl, hp, rfl⟩ := delJson_eq_some dd dd' "prettier" hd
          simp only [hg, hm, hd, Option.some.injEq, Prod.mk.injEq] at h
          obtain ⟨rfl, rfl⟩ := h
          have hgone : hasKey (delKey s "prettier") "prettier" = false :=
            hasKey_delKey_self s "prettier" (wfManifest_sub l "devDependencies" s hwf hg)
          exact removePrettier_obj_notFound _ _
            (getKey_setKey_self l "devDependencies" (Json.obj (delKey s "prettier")))
            (by rw [memJson_obj, hgone])

/-- Witness for C6 at the concrete manifest
`\x7b"devDependencies": \x7b"prettier": "^3.0.0"\x7d\x7d`. -/
theorem removePrettier_idempotent_witness :
    wfManifest [("devDependencies", Json.obj [("prettier", Json.str "^3.0.0")])] = true ∧
    removePrettierVal (Json.obj
        [("devDependencies", Json.obj [("prettier", Json.str "^3.0.0")])]) =
      some (Json.obj [("devDependencies", Json.obj [])], removedMsg) ∧
    removePrettierVal (Json.obj [("devDependencies", Json.obj [])]) =
      some (Json.obj [("devDependencies", Json.obj [])], notFoundMsg) :=
  ⟨rfl, rfl,
   removePrettier_idempotent
     [("devDependencies", Json.obj [("prettier", Json.str "^3.0.0")])] _ _ rfl rfl⟩

/-- Claim C2: on every JSON-object manifest where the run completes, the
Dependency-Remover removes `prettier` from `devDependencies` and reports
`removedMsg` exactly when `devDependencies` is a mapping containing
`prettier`; otherwise it mutates nothing and reports `notFoundMsg`; and the
diagnostic is always exactly one of the two lines. -/
theorem removePrettier_branches (l : List (String × Json)) (out : Json) (msg : String)
    (hwf : wfManifest l = true)
    (h : removePrettierVal (Json.obj l) = some (out, msg)) :
    (∀ s, getKey l "devDependencies" = some (Json.obj s) → hasKey s "prettier" = true →
      out = Json.obj (setKey l "devDependencies" (Json.obj (delKey s "prettier"))) ∧
      hasKey (delKey s "prettier") "prettier" = false ∧ msg = removedMsg) ∧
    ((¬ ∃ s, getKey l "devDependencies" = some (Json.obj s) ∧
        hasKey s "prettier" = true) → out = Json.obj l ∧ msg = notFoundMsg) ∧
    (msg = removedMsg ∨ msg = notFoundMsg) := by
  rw [removePrettier_obj] at h
  cases hg : getKey l "devDependencies" with
  | none =>
    simp only [hg, Option.some.injEq, Prod.mk.injEq] at h
    obtain ⟨rfl, rfl⟩ := h
    refine ⟨?_, fun _ => ⟨rfl, rfl⟩, Or.inr rfl⟩
    intro s hs hp
    exact Option.noConfusion hs
  | some dd =>
    cases hm : memJson dd "prettier" with
    | none => simp [hg, hm] at h
    | some b =>
      cases b with
      | false =>
        simp only [hg, hm, Option.some.injEq, Prod.mk.injEq] at h
        obtain ⟨rfl, rfl⟩ := h
        refine ⟨?_, fun _ => ⟨rfl, rfl⟩, Or.inr rfl⟩
        intro s hs hp
        obtain rfl := Option.some.inj hs
        rw [memJson_obj, hp] at hm
        exact absurd (Option.some.inj hm) (by simp)
      | true =>
        cases hd : delJson dd "prettier" with
        | none => simp [hg, hm, hd] at h
        | some dd' =>
          obtain ⟨s₀, rfl, hp₀, rfl⟩ := delJson_eq_some dd dd' "prettier" hd
          simp only [hg, hm, hd, Option.some.injEq, Prod.mk.injEq] at h
          obtain ⟨rfl, rfl⟩ := h
          refine ⟨?_, ?_, Or.inl rfl⟩
          · intro s hs hp
            obtain rfl : s₀ = s := Json.obj.inj (Option.some.inj hs)
            exact ⟨rfl,
              hasKey_delKey_self s₀ "prettier"
                (wfManifest_sub l "devDependencies" s₀ hwf hg),
              rfl⟩
          · intro hn
            exact absurd ⟨s₀, rfl, hp₀⟩ hn

/-- Witness for C2 at the concrete manifest
`\x7b"devDependencies": \x7b"prettier": "^3.0.0"\x7d\x7d`. -/
theorem removePrettier_branches_witness :
    wfManifest [("devDependencies", Json.obj [("prettier", Json.str "^3.0.0")])] = true ∧
    removePrettierVal (Json.obj
        [("devDependencies", Json.obj [("prettier", Json.str "^3.0.0")])]) =
      some (Json.obj [("devDependencies", Json.obj [])], removedMsg) ∧
    ((∀ s, getKey [("devDependencies", Json.obj [("prettier", Json.str "^3.0.0")])]
          "devDependencies" = some (Json.obj s) → hasKey s "prettier" = true →
        Json.obj [("devDependencies", Json.obj [])] =
          Json.obj (setKey [("devDependencies", Json.obj [("prettier", Json.str "^3.0.0")])]
            "devDependencies" (Json.obj (delKey s "prettier"))) ∧
        hasKey (delKey s "prettier") "prettier" = false ∧ removedMsg = removedMsg) ∧
     ((¬ ∃ s, getKey [("devDependencies", Json.obj [("prettier", Json.str "^3.0.0")])]
          "devDependencies" = some (Json.obj s) ∧ hasKey s "prettier" = true) →
        Json.obj [("devDependencies", Json.obj [])] =
          Json.obj [("devDependencies", Json.obj [("prettier", Json.str "^3.0.0")])] ∧
        removedMsg = notFoundMsg) ∧
     (removedMsg = removedMsg ∨ removedMsg = notFoundMsg)) :=
  ⟨rfl, rfl,
   removePrettier_branches [("devDependencies", Json.obj [("prettier", Json.str "^3.0.0")])]
     (Json.obj [("devDependencies", Json.obj [])]) removedMsg rfl rfl⟩

/-- Claim C4: both filters leave every top-level field other than their own
(`scripts` respectively `devDependencies`) unchanged and in order, and the
process writes the full transformed manifest serialized with a 2-space
indent to standard output. -/
theorem untouched_fields_preserved (l : List (String × Json)) :
    (∀ out, modifyPackageVal (Json.obj l) = some out →
      ∃ l', out = Json.obj l' ∧
        l'.filter (fun p => p.1 != "scripts") = l.filter (fun p => p.1 != "scripts") ∧
        (runModifyPackage (ParseResult.ok (Json.obj l))).stdout =
          some (dumpVal 0 out)) ∧
    (∀ out msg, removePrettierVal (Json.obj l) = some (out, msg) →
      ∃ l', out = Json.obj l' ∧
        l'.filter (fun p => p.1 != "devDependencies") =
          l.filter (fun p => p.1 != "devDependencies") ∧
        (runRemovePrettier (ParseResult.ok (Json.obj l))).stdout =
          some (dumpVal 0 out)) := by
  constructor
  · intro out h
    have hs : (runModifyPackage (ParseResult.ok (Json.obj l))).stdout =
        some (dumpVal 0 out) := by simp [runModifyPackage, h]
    rw [modifyPackage_obj] at h
    cases hg : getKey l "scripts" with
    | none =>
      simp only [hg, Option.some.injEq] at h
      subst h
      exact ⟨_, rfl, filter_setKey _ l "scripts" _ (fun w => by simp), hs⟩
    | some v =>
      cases v with
      | obj s =>
        simp only [hg, Option.some.injEq] at h
        subst h
        exact ⟨_, rfl, filter_setKey _ l "scripts" _ (fun w => by simp), hs⟩
      | null => simp [hg] at h
      | bool b => simp [hg] at h
      | num n => simp [hg] at h
      | str s => simp [hg] at h
      | arr a => simp [hg] at h
  · intro out msg h
    have hs : (runRemovePrettier (ParseResult.ok (Json.obj l))).stdout =
        some (dumpVal 0 out) := by simp [runRemovePrettier, h]
    rw [removePrettier_obj] at h
    cases hg : getKey l "devDependencies" with
    | none =>
      simp only [hg, Option.some.injEq, Prod.mk.injEq] at h
      obtain ⟨rfl, rfl⟩ := h
      exact ⟨l, rfl, rfl, hs⟩
    | some dd =>
      cases hm : memJson dd "prettier" with
      | none => simp [hg, hm] at h
      | some b =>
        cases b with
        | false =>
          simp only [hg, hm, Option.some.injEq, Prod.mk.injEq] at h
          obtain ⟨rfl, rfl⟩ := h
          exact ⟨l, rfl, rfl, hs⟩
        | true =>
          cases hd : delJson dd "prettier" with
          | none => simp [hg, hm, hd] at h
          | some dd' =>
            simp only [hg, hm, hd, Option.some.injEq, Prod.mk.injEq] at h
            obtain ⟨rfl, rfl⟩ := h
            exact ⟨_, rfl, filter_setKey _ l "devDependencies" _ (fun w => by simp), hs⟩

/-- Witness for C4 at the concrete manifest `\x7b"name": "demo"\x7d`. -/
theorem untouched_fields_preserved_witness :
    (∃ l', (Json.obj [("name", Json.str "demo"), ("scripts", Json.obj
        [("build", Json.str "bun build.ts"), ("lint", Json.str "bun biome lint ."),
         ("lint:fix", Json.str "bun biome lint --apply ."),
         ("format", Json.str "bun biome format ."),
         ("format:fix", Json.str "bun biome format --write .")])]) = Json.obj l' ∧
      l'.filter (fun p => p.1 != "scripts") =
        [("name", Json.str "demo")].filter (fun p => p.1 != "scripts") ∧
      (runModifyPackage (ParseResult.ok (Json.obj [("name", Json.str "demo")]))).stdout =
        some (dumpVal 0 (Json.obj [("name", Json.str "demo"), ("scripts", Json.obj
          [("build", Json.str "bun build.ts"), ("lint", Json.str "bun biome lint ."),
           ("lint:fix", Json.str "bun biome lint --apply ."),
           ("format", Json.str "bun biome format ."),
           ("format:fix", Json.str "bun biome format --write .")])]))) ∧
    (∃ l', Json.obj [("name", Json.str "demo")] = Json.obj l' ∧
      l'.filter (fun p => p.1 != "devDependencies") =
        [("name", Json.str "demo")].filter (fun p => p.1 != "devDependencies") ∧
      (runRemovePrettier (ParseResult.ok (Json.obj [("name", Json.str "demo")]))).stdout =
        some (dumpVal 0 (Json.obj [("name", Json.str "demo")]))) :=
  ⟨(untouched_fields_preserved [("name", Json.str "demo")]).1 _ rfl,
   (untouched_fields_preserved [("name", Json.str "demo")]).2
     (Json.obj [("name", Json.str "demo")]) notFoundMsg rfl⟩

/-- The six keys inside `scripts` that `modify_package.py` may write or
remove. -/
def sixEditKeys : List String :=
  ["build", "lint", "lint:fix", "format", "format:fix", "lint:format"]

/-- Claim C9 (implicit): when `scripts` is a mapping, the Script-Editor
succeeds and only writes or removes the six keys of `sixEditKeys` inside
`scripts`; every other entry keeps its key and value, in order. -/
theorem modifyPackage_scripts_frame (l s : List (String × Json))
    (hg : getKey l "scripts" = some (Json.obj s)) :
    modifyPackageVal (Json.obj l) =
      some (Json.obj (setKey l "scripts" (Json.obj (editScripts s)))) ∧
    (editScripts s).filter (fun p => !(sixEditKeys.contains p.1)) =
      s.filter (fun p => !(sixEditKeys.contains p.1)) := by
  refine ⟨modifyPackage_obj_some l s hg, ?_⟩
  exact editScripts_filter s _
    (fun w => (by decide : (!sixEditKeys.contains "build") = false))
    (fun w => (by decide : (!sixEditKeys.contains "lint") = false))
    (fun w => (by decide : (!sixEditKeys.contains "lint:fix") = false))
    (fun w => (by decide : (!sixEditKeys.contains "format") = false))
    (fun w => (by decide : (!sixEditKeys.contains "format:fix") = false))
    (fun w => (by decide : (!sixEditKeys.contains "lint:format") = false))

/-- Witness for C9 at the concrete manifest
`\x7b"scripts": \x7b"test": "y"\x7d\x7d`. -/
theorem modifyPackage_scripts_frame_witness :
    getKey [("scripts", Json.obj [("test", Json.str "y")])] "scripts" =
      some (Json.obj [("test", Json.str "y")]) ∧
    (modifyPackageVal (Json.obj [("scripts", Json.obj [("test", Json.str "y")])]) =
      some (Json.obj (setKey [("scripts", Json.obj [("test", Json.str "y")])] "scripts"
        (Json.obj (editScripts [("test", Json.str "y")])))) ∧
    (editScripts [("test", Json.str "y")]).filter (fun p => !(sixEditKeys.contains p.1)) =
      [("test", Json.str "y")].filter (fun p => !(sixEditKeys.contains p.1))) :=
  ⟨rfl, modifyPackage_scripts_frame [("scripts", Json.obj [("test", Json.str "y")])]
    [("test", Json.str "y")] rfl⟩

/-- Claim C7: the script-editor scenario: on input
`\x7b"scripts": \x7b"lint:format": "x", "test": "y"\x7d\x7d` the output
`scripts` is exactly the expected six-entry mapping, with no `lint:format`
key. -/
theorem scenario_script_editor :
    modifyPackageVal (Json.obj [("scripts",
        Json.obj [("lint:format", Json.str "x"), ("test", Json.str "y")])]) =
      some (Json.obj [("scripts", Json.obj
        [("test", Json.str "y"), ("build", Json.str "bun build.ts"),
         ("lint", Json.str "bun biome lint ."),
         ("lint:fix", Json.str "bun biome lint --apply ."),
         ("format", Json.str "bun biome format ."),
         ("format:fix", Json.str "bun biome format --write .")])]) := rfl

/-- Claim C8: the missing-section scenarios on input `\x7b\x7d`: the
Script-Editor creates `scripts` with exactly the five fixed entries, and the
Dependency-Remover returns the empty object unchanged with the "section
missing" diagnostic on standard error. -/
theorem scenario_missing_sections :
    modifyPackageVal (Json.obj []) = some (Json.obj [("scripts", Json.obj
      [("build", Json.str "bun build.ts"), ("lint", Json.str "bun biome lint ."),
       ("lint:fix", Json.str "bun biome lint --apply ."),
       ("format", Json.str "bun biome format ."),
       ("format:fix", Json.str "bun biome format --write .")])]) ∧
    removePrettierVal (Json.obj []) = some (Json.obj [], notFoundMsg) ∧
    (runRemovePrettier (ParseResult.ok (Json.obj []))).stderr = [notFoundMsg] :=
  ⟨rfl, rfl, rfl⟩

/-- Claim C10 (implicit): with `devDependencies` a JSON array containing the
string `"prettier"`, the membership test succeeds, the deletion raises an
unhandled `TypeError`, and the process exits nonzero (code 1) with nothing
on standard output although the input parsed successfully. -/
theorem remove_prettier_array_crash :
    memJson (Json.arr [Json.str "prettier"]) "prettier" = some true ∧
    delJson (Json.arr [Json.str "prettier"]) "prettier" = none ∧
    runRemovePrettier (ParseResult.ok (Json.obj
        [("devDependencies", Json.arr [Json.str "prettier"])])) =
      ⟨none, [], 1⟩ :=
  ⟨rfl, rfl, rfl⟩

/-- Counterexample to C3 as stated: exit code 1 is not produced only by
parse failures — a manifest that parses fine but has a string
`devDependencies` containing the substring `prettier` makes the deletion
raise an unhandled `TypeError`, so the process exits 1 with no output. -/
theorem exit1_not_only_parse_error :
    (runRemovePrettier (ParseResult.ok (Json.obj
        [("devDependencies", Json.str "uses prettier")]))).exitCode = 1 ∧
    (runRemovePrettier (ParseResult.ok (Json.obj
        [("devDependencies", Json.str "uses prettier")]))).stdout = none :=
  ⟨rfl, rfl⟩

/-- Amended C3: on every parse failure both filters write nothing to
standard output, print the `Error decoding JSON: ...` diagnostic and exit
with code 1; however, parse failure is not the only source of exit code 1,
since a structurally unexpected but syntactically valid input can make the
transform raise an unhandled exception, which also exits with code 1. -/
theorem parse_error_behavior (e : String) :
    runModifyPackage (ParseResult.err e) =
      ⟨none, ["Error decoding JSON: " ++ e], 1⟩ ∧
    runRemovePrettier (ParseResult.err e) =
      ⟨none, ["Error decoding JSON: " ++ e], 1⟩ ∧
    (runModifyPackage (ParseResult.ok (Json.obj [("scripts", Json.num 5)]))).exitCode =
      1 :=
  ⟨rfl, rfl, rfl⟩

/-- Witness for the amended C3 at the concrete decoder message
`Expecting value: line 1 column 1 (char 0)`. -/
theorem parse_error_behavior_witness :
    runModifyPackage (ParseResult.err "Expecting value: line 1 column 1 (char 0)") =
      ⟨none, ["Error decoding JSON: Expecting value: line 1 column 1 (char 0)"], 1⟩ ∧
    runRemovePrettier (ParseResult.err "Expecting value: line 1 column 1 (char 0)") =
      ⟨none, ["Error decoding JSON: Expecting value: line 1 column 1 (char 0)"], 1⟩ ∧
    (runModifyPackage (ParseResult.ok (Json.obj [("scripts", Json.num 5)]))).exitCode =
      1 :=
  parse_error_behavior "Expecting value: line 1 column 1 (char 0)"

end EnvTwin
